import Mathlib

/-
Verification of the adaptive bulk-fetch subsystem of `src/app.py`
(`startgg_ongoing_safe.py`).

Shallow embedding choices:
* The network is abstracted as an executor function: for the set-pagination
  queries, a function from (light-mode flag, page number) to the classified
  response of `fetch_event_sets_page`; for the slug query, a function from the
  slug to the classified response.  Each executed call is recorded in a trace
  of `(light, page)` pairs, so "number of network calls" and "mode of each
  call" are observable.
* Python exceptions become explicit result constructors
  (`GraphQLComplexityError` → `complexityErr`, plain `RuntimeError` →
  `otherErr`, the terminal "Even the light query hit the complexity limit"
  `RuntimeError ... from gce` → `exhaustedFallback` carrying the message of
  the complexity error `gce` that triggered it).
* The unbounded `while True` pagination loop is given explicit fuel; a run
  that exhausts fuel yields `fuelOut`, which no theorem counts as an outcome
  of the program.
* JSON dict fields that may be absent become `Option`; Python truthiness on
  an optional integer field (`None` and `0` are falsy) is `pyTruthy`; the
  `time.sleep(0.08)` pacing call has no observable effect on values and is
  not modelled.
-/

namespace DWTV

/-! ### Remote query executor (`_graphql_query`, src/app.py lines 82-101) -/

/-- one entry of the JSON `errors` array; `message` may be absent, in which
case the code reads it as `""` via `e.get("message", "")`. -/
structure GqlError where
  message : Option String
deriving DecidableEq

/-- the message text of an error entry, `e.get("message", "")`. -/
def errMsg (e : GqlError) : String := e.message.getD ""

/-- whether `hay` starts with `needle` (character lists). -/
def leadsWith : List Char → List Char → Bool
  | [], _ => true
  | _ :: _, [] => false
  | a :: as, b :: bs => a == b && leadsWith as bs

/-- whether `needle` occurs contiguously inside the second list: the meaning
of the Python expression `needle in text` on strings. -/
def hasSub (needle : List Char) : List Char → Bool
  | [] => needle.isEmpty
  | c :: rest => leadsWith needle (c :: rest) || hasSub needle rest

/-- character list of `s.lower()` (ASCII lowering, as in the messages the
code inspects). -/
def lowerChars (s : String) : List Char := s.data.map Char.toLower

/-- the complexity test of src/app.py line 97:
`"complexity" in msg_text.lower() or "maximum of 1000 objects" in msg_text.lower()`. -/
def isComplexityMessage (msg : String) : Bool :=
  hasSub "complexity".data (lowerChars msg) ||
    hasSub "maximum of 1000 objects".data (lowerChars msg)

/-- outcome of `_graphql_query`: normal payload, `GraphQLComplexityError`
carrying one message, or the generic `RuntimeError` carrying the whole
`errors` list. -/
inductive GqlOutcome (α : Type) where
  | data (d : α)
  | complexityRejected (msg : String)
  | failure (errors : List GqlError)
deriving DecidableEq

/-- the error-scanning loop of src/app.py lines 95-100: raise
`GraphQLComplexityError(msg_text)` at the first error whose message matches
the complexity test, otherwise `RuntimeError` with the full list. -/
def classify_errors {α : Type} (msgs : List GqlError) : GqlOutcome α :=
  match msgs.find? (fun e => isComplexityMessage (errMsg e)) with
  | some e => .complexityRejected (errMsg e)
  | none => .failure msgs

/-- a decoded JSON response body: an optional `errors` array, and the value
of `data` (used only when `errors` is absent). -/
structure GqlResponse (α : Type) where
  errors : Option (List GqlError)
  payload : α

/-- model of `_graphql_query` after transport succeeded: dispatch on the presence of
`"errors"` (src/app.py lines 91-101). -/
def graphql_query {α : Type} (resp : GqlResponse α) : GqlOutcome α :=
  match resp.errors with
  | some msgs => classify_errors msgs
  | none => .data resp.payload

/-! ### Paginated fetching (`fetch_all_sets_for_event`, src/app.py lines
129-184)

The per-page call `fetch_event_sets_page` is abstracted as an `Executor`:
given the light flag and the page number it produces either the
`container` (`nodes` and `pageInfo.totalPages`, each possibly absent) or
one of the two exception kinds of `_graphql_query`.  Match records
themselves are opaque, hence the type parameter `α`. -/

/-- the `sets` container of one page: `nodes` (possibly absent, read via
`container.get("nodes") or []`) and `pageInfo.get("totalPages")`. -/
structure PageEnvelope (α : Type) where
  nodes : Option (List α)
  totalPages : Option Nat
deriving DecidableEq

/-- classified result of one `fetch_event_sets_page` call. -/
inductive ExecResp (α : Type) where
  | ok (env : PageEnvelope α)
  | complexityErr (msg : String)
  | otherErr (msg : String)
deriving DecidableEq

/-- the abstract per-page query: light flag and page number to response. -/
abbrev Executor (α : Type) := Bool → Nat → ExecResp α

/-- the nodes a successful response contributes (`container.get("nodes") or []`). -/
def nodesOf {α : Type} : ExecResp α → List α
  | .ok env => env.nodes.getD []
  | _ => []

/-- result of one run of the inner pagination loop. -/
inductive LoopResult (α : Type) where
  | ok (sets : List α)
  | complexityErr (msg : String)
  | otherErr (msg : String)
  | fuelOut
deriving DecidableEq

/-- the cap test of src/app.py line 168, `if max_pages and page > max_pages`:
Python truthiness makes `None` and `0` skip the test. -/
def maxPagesExceeded (maxPages : Option Nat) (page : Nat) : Bool :=
  match maxPages with
  | none => false
  | some m => !(m == 0) && decide (page > m)

/-- the per-page size actually used (src/app.py lines 143-148):
`min(per_page, 10)` in light mode, `per_page` otherwise. -/
def effectivePerPage (light : Bool) (perPage : Nat) : Nat :=
  if light then min perPage 10 else perPage

/-- prepend the nodes of the current page to a loop result that completed normally; an
abnormal result discards them (the exception escapes `sets`). -/
def mergeOk {α : Type} (nds : List α) : LoopResult α → LoopResult α
  | .ok s => .ok (nds ++ s)
  | r => r

/-- the inner `while True` pagination loop of src/app.py lines 150-174,
started at page `page` with `fuel` remaining iterations.  Returns the trace
of executor calls made (in order) together with the result of the loop; the list
of collected sets is returned as the concatenation of the nodes of each page with
the sets of the remaining pages, which renders `sets.extend(nodes)` followed
by `return sets`. -/
def paginateFrom {α : Type} (exec : Executor α) (light : Bool) (usedPerPage : Nat)
    (maxPages : Option Nat) : Nat → Nat → List (Bool × Nat) × LoopResult α
  | 0, _ => ([], .fuelOut)
  | fuel + 1, page =>
    match exec light page with
    | .complexityErr m => ([(light, page)], .complexityErr m)
    | .otherErr m => ([(light, page)], .otherErr m)
    | .ok env =>
      let nds := env.nodes.getD []
      let stop : Bool :=
        match env.totalPages with
        | none => decide (nds.length < usedPerPage)
        | some tp => decide (page ≥ tp)
      if stop then ([(light, page)], .ok nds)
      else if maxPagesExceeded maxPages (page + 1) then ([(light, page)], .ok nds)
      else
        let pr := paginateFrom exec light usedPerPage maxPages fuel (page + 1)
        ((light, page) :: pr.1, mergeOk nds pr.2)

/-- one iteration of the outer retry loop of `fetch_all_sets_for_event`:
choose the mode-dependent page size and run the pagination loop from
page 1. -/
def runAttempt {α : Type} (exec : Executor α) (perPage : Nat) (maxPages : Option Nat)
    (attemptLight : Bool) (fuel : Nat) : List (Bool × Nat) × LoopResult α :=
  paginateFrom exec attemptLight (effectivePerPage attemptLight perPage) maxPages fuel 1

/-- outcome of `fetch_all_sets_for_event`: the returned list, a propagated
`RuntimeError`, or the terminal "Even the light query hit the complexity
limit" error raised `from gce` (carrying the message of the complexity error
`gce` caught during the light attempt). -/
inductive FetchOutcome (α : Type) where
  | ok (sets : List α)
  | otherErr (msg : String)
  | exhaustedFallback (msg : String)
  | fuelOut
deriving DecidableEq

/-- model of `fetch_all_sets_for_event` (src/app.py lines 129-184).  The
source `while True` loop flips `attempt_light` from `False` to `True` at most once
(on `GraphQLComplexityError` when not yet light), so it is unrolled into its
at most two iterations: a first attempt in the mode given by `force_light`,
and, only when that attempt raised a complexity error while not light, a
second attempt in light mode; a complexity error in light mode becomes the
terminal error.  The call trace of both attempts is concatenated. -/
def fetch_all_sets_for_event {α : Type} (exec : Executor α) (perPage : Nat)
    (maxPages : Option Nat) (forceLight : Bool) (fuel : Nat) :
    List (Bool × Nat) × FetchOutcome α :=
  match runAttempt exec perPage maxPages forceLight fuel with
  | (tr1, .ok s) => (tr1, .ok s)
  | (tr1, .otherErr m) => (tr1, .otherErr m)
  | (tr1, .fuelOut) => (tr1, .fuelOut)
  | (tr1, .complexityErr m) =>
    if forceLight then (tr1, .exhaustedFallback m)
    else
      match runAttempt exec perPage maxPages true fuel with
      | (tr2, .ok s) => (tr1 ++ tr2, .ok s)
      | (tr2, .otherErr m2) => (tr1 ++ tr2, .otherErr m2)
      | (tr2, .fuelOut) => (tr1 ++ tr2, .fuelOut)
      | (tr2, .complexityErr m2) => (tr1 ++ tr2, .exhaustedFallback m2)

/-! ### Ongoing-match classifier (`is_set_ongoing`, src/app.py lines 186-197) -/

/-- the fields of a set node that `is_set_ongoing` reads; each is an
optional integer (absent/null vs. present). -/
structure SetNode where
  startedAt : Option Int
  startAt : Option Int
  completedAt : Option Int
  winnerId : Option Int
deriving DecidableEq

/-- Python truthiness of an optional integer: `None` and `0` are falsy. -/
def pyTruthy : Option Int → Bool
  | none => false
  | some v => !(v == 0)

/-- Python `a or b` on optional integers: `a` when truthy, else `b`. -/
def pyOr (a b : Option Int) : Option Int := if pyTruthy a then a else b

/-- model of `is_set_ongoing` (src/app.py lines 186-197):
`started_at = node.get("startedAt") or node.get("startAt")`, then ongoing iff
`started_at and not completed_at` or `started_at and not winner_id`. -/
def is_set_ongoing (s : SetNode) : Bool :=
  let started_at := pyOr s.startedAt s.startAt
  if pyTruthy started_at && !pyTruthy s.completedAt then true
  else if pyTruthy started_at && !pyTruthy s.winnerId then true
  else false

/-- the classifier as the specification words it: a non-null start timestamp
(primary `startedAt`, alternate `startAt`) and a null completion timestamp or
a null winner identifier.  Stated for comparison with `is_set_ongoing`. -/
def claimed_ongoing (s : SetNode) : Bool :=
  (s.startedAt.isSome || s.startAt.isSome) &&
    (s.completedAt.isNone || s.winnerId.isNone)

/-- the filter of src/app.py line 211: `[s for s in all_sets if is_set_ongoing(s)]`. -/
def classify_ongoing (sets : List SetNode) : List SetNode :=
  sets.filter is_set_ongoing

/-! ### Event resolver (src/app.py lines 103-116 and 205-208) -/

/-- the whitespace characters `int(str)` strips (checked against CPython
3.11 by enumerating all code points): ASCII `09`-`0D`, space, NEL `85`,
NBSP `A0`, Ogham space `1680`, the `2000`-`200A` spaces, line and paragraph
separators `2028`/`2029`, `202F`, `205F`, and ideographic space `3000`. -/
def isPyWhitespace (c : Char) : Bool :=
  let n := c.toNat
  (0x09 ≤ n && n ≤ 0x0D) || n == 0x20 || n == 0x85 ||
    n == 0xA0 || n == 0x1680 || (0x2000 ≤ n && n ≤ 0x200A) || n == 0x2028 ||
    n == 0x2029 || n == 0x202F || n == 0x205F || n == 0x3000

/-- drop leading Python-whitespace characters. -/
def dropPyWS : List Char → List Char
  | [] => []
  | c :: rest => if isPyWhitespace c then dropPyWS rest else c :: rest

/-- strip Python whitespace from both ends, as `int(str)` tolerates. -/
def pyStrip (cs : List Char) : List Char :=
  ((dropPyWS ((dropPyWS cs).reverse)).reverse)

/-- first code points of the 66 runs of ten decimal digits accepted by
`int()`: the Unicode general category Nd, each run mapping its characters
to the values 0-9.  The list was obtained by enumerating all code points
against CPython 3.11 (Unicode 14.0); CPython 3.12+ (Unicode 15.0)
additionally accepts the Kawi `11F50` and Nag Mundari `1E4F0` runs. -/
def ndStarts : List Nat :=
  [0x30, 0x660, 0x6F0, 0x7C0, 0x966, 0x9E6, 0xA66, 0xAE6, 0xB66, 0xBE6,
   0xC66, 0xCE6, 0xD66, 0xDE6, 0xE50, 0xED0, 0xF20, 0x1040, 0x1090, 0x17E0,
   0x1810, 0x1946, 0x19D0, 0x1A80, 0x1A90, 0x1B50, 0x1BB0, 0x1C40, 0x1C50,
   0xA620, 0xA8D0, 0xA900, 0xA9D0, 0xA9F0, 0xAA50, 0xABF0, 0xFF10, 0x104A0,
   0x10D30, 0x11066, 0x110F0, 0x11136, 0x111D0, 0x112F0, 0x11450, 0x114D0,
   0x11650, 0x116C0, 0x11730, 0x118E0, 0x11950, 0x11C50, 0x11D50, 0x11DA0,
   0x16A60, 0x16AC0, 0x16B50, 0x1D7CE, 0x1D7D8, 0x1D7E2, 0x1D7EC,
   0x1D7F6, 0x1E140, 0x1E2F0, 0x1E950, 0x1FBF0]

/-- decimal value of a character under `int()`: its offset inside an Nd
run of ten, `none` for every non-digit. -/
def pyDigitVal (c : Char) : Option Nat :=
  (ndStarts.find? (fun s => decide (s ≤ c.toNat) && decide (c.toNat ≤ s + 9))).map
    (fun s => c.toNat - s)

/-- continue a digit sequence: a single underscore is allowed as a
separator strictly between two digits (`1_000`), never doubled, leading or
trailing — the `int()` grammar since Python 3.6. -/
def digitsTail (acc : Nat) : List Char → Option Nat
  | [] => some acc
  | '_' :: c :: rest =>
    match pyDigitVal c with
    | some v => digitsTail (acc * 10 + v) rest
    | none => none
  | '_' :: [] => none
  | c :: rest =>
    match pyDigitVal c with
    | some v => digitsTail (acc * 10 + v) rest
    | none => none

/-- parse a digit sequence with underscore separators; it must start with a
digit and be non-empty. -/
def parseDigitsPy : List Char → Option Nat
  | [] => none
  | c :: rest =>
    match pyDigitVal c with
    | some v => digitsTail v rest
    | none => none

/-- Python `int(event)` on a string: optional surrounding whitespace (the
CPython whitespace table), an optional sign, then Unicode decimal digits
with optional single underscore separators; anything else raises
`ValueError` (`none` here). -/
def pyParseInt (s : String) : Option Int :=
  match pyStrip s.data with
  | '+' :: rest => (parseDigitsPy rest).map (fun n => (n : Int))
  | '-' :: rest => (parseDigitsPy rest).map (fun n => -(n : Int))
  | cs => (parseDigitsPy cs).map (fun n => (n : Int))

/-- classified response of the slug-resolution query `EventBySlug`:
`data["event"]` possibly null (with its `id` when present), or an exception
from `_graphql_query`. -/
inductive SlugQueryResp where
  | ok (event : Option Int)
  | err (msg : String)
deriving DecidableEq

/-- result of resolving an event reference, with the exception kinds kept
distinct: `ValueError` ("Event not found for slug") vs. propagated errors. -/
inductive ResolveResult where
  | handle (id : Int)
  | notFound (slug : String)
  | failure (msg : String)
deriving DecidableEq

/-- model of `get_event_id_from_slug` (src/app.py lines 103-116): one query; a null
`event` raises `ValueError`, otherwise return `int(event["id"])`.  The first
component counts the network calls issued. -/
def get_event_id_from_slug (slugExec : String → SlugQueryResp) (slug : String) :
    Nat × ResolveResult :=
  match slugExec slug with
  | .ok (some i) => (1, .handle i)
  | .ok none => (1, .notFound slug)
  | .err m => (1, .failure m)

/-- the resolution step of `get_ongoing_sets_for_event` (src/app.py lines
205-208): `int(event)` if it parses, else resolve the slug remotely. -/
def resolve_event (slugExec : String → SlugQueryResp) (event : String) :
    Nat × ResolveResult :=
  match pyParseInt event with
  | some n => (0, .handle n)
  | none => get_event_id_from_slug slugExec event

/-! ### Helper lemmas about the pagination loop -/

/-- every call the pagination loop makes is in the mode it was started in. -/
theorem paginateFrom_mode {α : Type} (exec : Executor α) (light : Bool) (u : Nat)
    (mp : Option Nat) : ∀ (fuel page : Nat) (c : Bool × Nat),
    c ∈ (paginateFrom exec light u mp fuel page).1 → c.1 = light := by
  intro fuel
  induction fuel with
  | zero => intro page c hc; simp [paginateFrom] at hc
  | succ n ih =>
    intro page c hc
    cases hx : exec light page with
    | complexityErr m =>
      simp [paginateFrom, hx] at hc
      simp [hc]
    | otherErr m =>
      simp [paginateFrom, hx] at hc
      simp [hc]
    | ok env =>
      simp only [paginateFrom, hx] at hc
      split at hc
      · simp at hc; simp [hc]
      · split at hc
        · simp at hc; simp [hc]
        · simp only [List.mem_cons] at hc
          rcases hc with hc | hc
          · simp [hc]
          · exact ih (page + 1) c hc

/-- when the pagination loop returns normally, the returned list is the
concatenation, in call order, of the nodes of the pages it visited. -/
theorem paginateFrom_ok_concat {α : Type} (exec : Executor α) (light : Bool) (u : Nat)
    (mp : Option Nat) : ∀ (fuel page : Nat) (tr : List (Bool × Nat)) (s : List α),
    paginateFrom exec light u mp fuel page = (tr, .ok s) →
    s = (tr.map (fun c => nodesOf (exec c.1 c.2))).flatten := by
  intro fuel
  induction fuel with
  | zero => intro page tr s h; simp [paginateFrom] at h
  | succ n ih =>
    intro page tr s h
    cases hx : exec light page with
    | complexityErr m => simp [paginateFrom, hx] at h
    | otherErr m => simp [paginateFrom, hx] at h
    | ok env =>
      simp only [paginateFrom, hx] at h
      split at h
      · simp only [Prod.mk.injEq, LoopResult.ok.injEq] at h
        obtain ⟨rfl, rfl⟩ := h
        simp [nodesOf, hx]
      · split at h
        · simp only [Prod.mk.injEq, LoopResult.ok.injEq] at h
          obtain ⟨rfl, rfl⟩ := h
          simp [nodesOf, hx]
        · rcases hrec : paginateFrom exec light u mp n (page + 1) with ⟨tr', r'⟩
          rw [hrec] at h
          cases r' with
          | ok s' =>
            simp only [mergeOk, Prod.mk.injEq, LoopResult.ok.injEq] at h
            obtain ⟨rfl, rfl⟩ := h
            have hs' := ih (page + 1) tr' s' hrec
            simp [nodesOf, hx, hs']
          | complexityErr m => simp [mergeOk] at h
          | otherErr m => simp [mergeOk] at h
          | fuelOut => simp [mergeOk] at h

/-- a `max_pages` of `0` is falsy in Python, so the cap test never fires:
the loop behaves exactly as with no cap. -/
theorem paginateFrom_some_zero {α : Type} (exec : Executor α) (light : Bool) (u : Nat) :
    ∀ (fuel page : Nat),
    paginateFrom exec light u (some 0) fuel page =
      paginateFrom exec light u none fuel page := by
  intro fuel
  induction fuel with
  | zero => intro page; rfl
  | succ n ih =>
    intro page
    cases hx : exec light page with
    | complexityErr m => simp [paginateFrom, hx]
    | otherErr m => simp [paginateFrom, hx]
    | ok env =>
      simp only [paginateFrom, hx]
      have hcap : maxPagesExceeded (some 0) (page + 1) = maxPagesExceeded none (page + 1) := by
        simp [maxPagesExceeded]
      rw [hcap, ih (page + 1)]

/-- when every visited page reports `totalPages = T`, the loop visits exactly
pages `page, page+1, ..., T` and returns the concatenation of their nodes;
the per-page node lists are arbitrary (the node count is never consulted). -/
theorem paginateFrom_total {α : Type} (exec : Executor α) (light : Bool) (u T : Nat)
    (hresp : ∀ p, 1 ≤ p → p ≤ T → ∃ env, exec light p = .ok env ∧ env.totalPages = some T) :
    ∀ (fuel page : Nat), 1 ≤ page → page ≤ T → T + 1 - page ≤ fuel →
    paginateFrom exec light u none fuel page =
      ((List.range' page (T + 1 - page)).map (fun p => (light, p)),
       .ok (((List.range' page (T + 1 - page)).map (fun p => nodesOf (exec light p))).flatten)) := by
  intro fuel
  induction fuel with
  | zero => intro page h1 h2 h3; omega
  | succ n ih =>
    intro page h1 h2 h3
    obtain ⟨env, hx, htp⟩ := hresp page h1 h2
    by_cases hpT : page = T
    · have hstop : (decide (page ≥ T)) = true := by simp; omega
      have hcount : T + 1 - page = 1 := by omega
      rw [hcount, List.range'_one]
      simp [paginateFrom, hx, htp, hstop, nodesOf]
    · have hlt : page < T := lt_of_le_of_ne h2 hpT
      have hstop : (decide (page ≥ T)) = false := by simp; omega
      have hcount : T + 1 - page = (T - page) + 1 := by omega
      have hcount2 : T + 1 - (page + 1) = T - page := by omega
      have hrec := ih (page + 1) (by omega) (by omega) (by omega)
      rw [hcount2] at hrec
      rw [hcount, List.range'_succ]
      simp only [paginateFrom, hx, htp, hstop, maxPagesExceeded, Bool.false_eq_true,
        if_false, List.map_cons, List.flatten_cons]
      rw [hrec]
      simp [mergeOk, nodesOf, hx]

/-- when `totalPages` is absent from every visited page, the loop stops at
the first page whose node count is strictly below the per-page size; fuller
pages never stop it. -/
theorem paginateFrom_nototal {α : Type} (exec : Executor α) (light : Bool) (u k : Nat)
    (ns : Nat → List α)
    (hresp : ∀ p, 1 ≤ p → p ≤ k → exec light p = .ok ⟨some (ns p), none⟩)
    (hfull : ∀ p, 1 ≤ p → p < k → u ≤ (ns p).length)
    (hlast : (ns k).length < u) :
    ∀ (fuel page : Nat), 1 ≤ page → page ≤ k → k + 1 - page ≤ fuel →
    paginateFrom exec light u none fuel page =
      ((List.range' page (k + 1 - page)).map (fun p => (light, p)),
       .ok (((List.range' page (k + 1 - page)).map ns).flatten)) := by
  intro fuel
  induction fuel with
  | zero => intro page h1 h2 h3; omega
  | succ n ih =>
    intro page h1 h2 h3
    have hx := hresp page h1 h2
    by_cases hpk : page = k
    · have hstop : (decide ((ns page).length < u)) = true := by
        simp only [decide_eq_true_eq]
        rw [hpk]; exact hlast
      have hcount : k + 1 - page = 1 := by omega
      rw [hcount, List.range'_one]
      simp [paginateFrom, hx, hstop]
    · have hlt : page < k := lt_of_le_of_ne h2 hpk
      have hstop : (decide ((ns page).length < u)) = false := by
        simp only [decide_eq_false_iff_not, not_lt]
        exact hfull page h1 hlt
      have hcount : k + 1 - page = (k - page) + 1 := by omega
      have hcount2 : k + 1 - (page + 1) = k - page := by omega
      have hrec := ih (page + 1) (by omega) (by omega) (by omega)
      rw [hcount2] at hrec
      rw [hcount, List.range'_succ]
      simp only [paginateFrom, hx, hstop, maxPagesExceeded, Bool.false_eq_true,
        if_false, List.map_cons, List.flatten_cons, Option.getD_some]
      rw [hrec]
      simp [mergeOk]

/-- with a positive cap `m`, the loop issues at most `m + 1 - page` calls
when started at `page ≤ m`. -/
theorem paginateFrom_cap_len {α : Type} (exec : Executor α) (light : Bool) (u m : Nat)
    (hm : 1 ≤ m) : ∀ (fuel page : Nat), 1 ≤ page → page ≤ m →
    (paginateFrom exec light u (some m) fuel page).1.length ≤ m + 1 - page := by
  intro fuel
  induction fuel with
  | zero => intro page h1 h2; simp [paginateFrom]
  | succ n ih =>
    intro page h1 h2
    cases hx : exec light page with
    | complexityErr msg => simp [paginateFrom, hx]; omega
    | otherErr msg => simp [paginateFrom, hx]; omega
    | ok env =>
      simp only [paginateFrom, hx]
      split
      · simp; omega
      · split
        · simp; omega
        · next hcap =>
          simp only [List.length_cons]
          have hle : page + 1 ≤ m := by
            by_contra hgt
            apply hcap
            simp only [maxPagesExceeded, Bool.and_eq_true, Bool.not_eq_true',
              beq_eq_false_iff_ne, ne_eq, decide_eq_true_eq]
            omega
          have := ih (page + 1) (by omega) hle
          omega

/-- every call of one attempt is in the mode of that attempt. -/
theorem runAttempt_mode {α : Type} (exec : Executor α) (perPage : Nat)
    (mp : Option Nat) (light : Bool) (fuel : Nat) :
    ∀ c ∈ (runAttempt exec perPage mp light fuel).1, c.1 = light := by
  intro c hc
  exact paginateFrom_mode exec light (effectivePerPage light perPage) mp fuel 1 c hc

/-- a trace whose calls are all in mode `b` projects to a constant list. -/
theorem trace_map_replicate (tr : List (Bool × Nat)) (b : Bool)
    (h : ∀ c ∈ tr, c.1 = b) :
    tr.map Prod.fst = List.replicate tr.length b := by
  rw [List.eq_replicate_iff]
  refine ⟨by simp, ?_⟩
  intro x hx
  simp only [List.mem_map] at hx
  obtain ⟨c, hc, rfl⟩ := hx
  exact h c hc

/-! ### Claim theorems -/

/-- C3: on a structured error response (the `errors` array is present), the
executor classifies it as a complexity rejection iff at least one reported
message contains, case-insensitively, the substring "complexity" or the
substring "maximum of 1000 objects"; the rejection carries such a message,
and otherwise the response is classified as a failure carrying the full
error list. -/
theorem graphql_complexity_classification {α : Type} (resp : GqlResponse α)
    (msgs : List GqlError) (herr : resp.errors = some msgs) :
    ((∃ e ∈ msgs, isComplexityMessage (errMsg e) = true) →
      ∃ e ∈ msgs, isComplexityMessage (errMsg e) = true ∧
        graphql_query resp = .complexityRejected (errMsg e)) ∧
    ((∀ e ∈ msgs, isComplexityMessage (errMsg e) = false) →
      graphql_query resp = .failure msgs) ∧
    (∀ m, graphql_query resp = .complexityRejected m →
      ∃ e ∈ msgs, isComplexityMessage (errMsg e) = true ∧ m = errMsg e) := by
  have hq : graphql_query resp = classify_errors (α := α) msgs := by
    unfold graphql_query; rw [herr]
  cases hfind : msgs.find? (fun e => isComplexityMessage (errMsg e)) with
  | some e =>
    have hcls : classify_errors (α := α) msgs = .complexityRejected (errMsg e) := by
      unfold classify_errors; rw [hfind]
    have hpe : isComplexityMessage (errMsg e) = true := by
      simpa using List.find?_some hfind
    refine ⟨?_, ?_, ?_⟩
    · intro _
      exact ⟨e, List.mem_of_find?_eq_some hfind, hpe, by rw [hq, hcls]⟩
    · intro hall
      have h2 := hall e (List.mem_of_find?_eq_some hfind)
      rw [h2] at hpe
      cases hpe
    · intro m hm
      rw [hq, hcls] at hm
      have hme : errMsg e = m := by injection hm
      exact ⟨e, List.mem_of_find?_eq_some hfind, hpe, hme.symm⟩
  | none =>
    have hcls : classify_errors (α := α) msgs = .failure msgs := by
      unfold classify_errors; rw [hfind]
    have hnone := List.find?_eq_none.mp hfind
    refine ⟨?_, ?_, ?_⟩
    · intro hex
      obtain ⟨e, he, hm⟩ := hex
      exact absurd hm (hnone e he)
    · intro _
      rw [hq, hcls]
    · intro m hm
      rw [hq, hcls] at hm
      exact GqlOutcome.noConfusion hm

/-- Witness for C3: a concrete error list with no complexity-like message is
classified as a generic failure carrying the full list. -/
theorem graphql_complexity_classification_witness :
    graphql_query (α := Nat) ⟨some [⟨some "rate limit exceeded"⟩], 0⟩ =
      .failure [⟨some "rate limit exceeded"⟩] :=
  (graphql_complexity_classification ⟨some [⟨some "rate limit exceeded"⟩], 0⟩
    [⟨some "rate limit exceeded"⟩] rfl).2.1 (by decide)

/-- C4 counterexample: a record whose primary start timestamp is present but
equal to `0` has a non-null start timestamp and no completion timestamp, so
the claim says it is ongoing (`claimed_ongoing`, the rule of the spec verbatim),
yet `is_set_ongoing` tests Python truthiness, for which `0` is falsy, and
rejects it. -/
theorem is_set_ongoing_nonnull_counterexample :
    claimed_ongoing ⟨some 0, none, none, none⟩ = true ∧
    is_set_ongoing ⟨some 0, none, none, none⟩ = false := by decide

/-- C4 amended: a record is marked ongoing iff its start value (`startedAt`
if truthy, else `startAt`) is truthy — present and non-zero — and its
completion timestamp or its winner identifier is not truthy; on the
spec three-record example with non-zero timestamps and winner, exactly the first
record is returned. -/
theorem is_set_ongoing_truthy_iff (s : SetNode) :
    (is_set_ongoing s = true ↔
      (pyTruthy (pyOr s.startedAt s.startAt) = true ∧
        (pyTruthy s.completedAt = false ∨ pyTruthy s.winnerId = false))) ∧
    (∀ T1 T2 T3 W1 : Int, T1 ≠ 0 → T2 ≠ 0 → T3 ≠ 0 → W1 ≠ 0 →
      classify_ongoing
        [⟨some T1, none, none, none⟩, ⟨none, none, none, none⟩,
         ⟨some T2, none, some T3, some W1⟩] =
        [⟨some T1, none, none, none⟩]) := by
  constructor
  · cases hA : pyTruthy (pyOr s.startedAt s.startAt) <;>
      cases hB : pyTruthy s.completedAt <;>
      cases hC : pyTruthy s.winnerId <;>
      simp [is_set_ongoing, hA, hB, hC]
  · intro T1 T2 T3 W1 h1 h2 h3 h4
    have b1 : (T1 == 0) = false := by simpa using h1
    have b2 : (T2 == 0) = false := by simpa using h2
    have b3 : (T3 == 0) = false := by simpa using h3
    have b4 : (W1 == 0) = false := by simpa using h4
    simp [classify_ongoing, is_set_ongoing, pyOr, pyTruthy, b1, b2, b3, b4]

/-- Witness for the amended C4 claim at concrete records. -/
theorem is_set_ongoing_truthy_iff_witness :
    (is_set_ongoing ⟨some 5, none, none, none⟩ = true ↔
      (pyTruthy (pyOr (some 5) none) = true ∧
        (pyTruthy none = false ∨ pyTruthy none = false))) ∧
    classify_ongoing
      [⟨some 11, none, none, none⟩, ⟨none, none, none, none⟩,
       ⟨some 12, none, some 13, some 9⟩] = [⟨some 11, none, none, none⟩] :=
  ⟨(is_set_ongoing_truthy_iff ⟨some 5, none, none, none⟩).1,
   (is_set_ongoing_truthy_iff ⟨some 5, none, none, none⟩).2 11 12 13 9
     (by decide) (by decide) (by decide) (by decide)⟩

/-- C8: an event reference that parses as an integer resolves to that
integer with zero network calls; one that does not parse issues exactly one
slug-resolution call, an absent result yields the distinct not-found error,
and the not-found error is never equal to a generic failure. -/
theorem resolve_event_spec (slugExec : String → SlugQueryResp) (event : String) :
    (∀ n, pyParseInt event = some n →
      resolve_event slugExec event = (0, .handle n)) ∧
    (pyParseInt event = none →
      (resolve_event slugExec event).1 = 1 ∧
      (slugExec event = .ok none →
        resolve_event slugExec event = (1, .notFound event))) ∧
    (∀ s m, ResolveResult.notFound s ≠ ResolveResult.failure m) := by
  refine ⟨?_, ?_, ?_⟩
  · intro n hn
    simp [resolve_event, hn]
  · intro hn
    constructor
    · simp only [resolve_event, hn]
      cases hs : slugExec event with
      | ok oe => cases oe <;> simp [get_event_id_from_slug, hs]
      | err m => simp [get_event_id_from_slug, hs]
    · intro habs
      simp [resolve_event, hn, get_event_id_from_slug, habs]
  · exact fun s m h => ResolveResult.noConfusion h

/-- Witness for C8: a digit string resolves locally with zero calls —
including one with an underscore separator, one in Arabic-Indic digits and
one padded with a vertical tab, all accepted by `int()`; a slug issues
exactly one call and an absent result is reported as not found. -/
theorem resolve_event_spec_witness :
    resolve_event (fun _ => SlugQueryResp.ok none) "12345" = (0, .handle 12345) ∧
    resolve_event (fun _ => SlugQueryResp.ok none) "1_000" = (0, .handle 1000) ∧
    resolve_event (fun _ => SlugQueryResp.ok none) "١٢٣" = (0, .handle 123) ∧
    resolve_event (fun _ => SlugQueryResp.ok none) "\x0B5" = (0, .handle 5) ∧
    resolve_event (fun _ => SlugQueryResp.ok none) "some-event-slug" =
      (1, .notFound "some-event-slug") :=
  ⟨(resolve_event_spec (fun _ => SlugQueryResp.ok none) "12345").1 12345 (by decide),
   (resolve_event_spec (fun _ => SlugQueryResp.ok none) "1_000").1 1000 (by decide),
   (resolve_event_spec (fun _ => SlugQueryResp.ok none) "١٢٣").1 123 (by decide),
   (resolve_event_spec (fun _ => SlugQueryResp.ok none) "\x0B5").1 5 (by decide),
   ((resolve_event_spec (fun _ => SlugQueryResp.ok none) "some-event-slug").2.1
     (by decide)).2 rfl⟩

/-- C1: when the FULL attempt ends in a complexity rejection (after any
number of successful pages) and the LIGHT attempt then succeeds, the fetch
returns exactly the records of the LIGHT attempt: the concatenation of the nodes
of the LIGHT-mode pages, every one of which was requested in LIGHT mode, so
no FULL-mode record survives. -/
theorem fallback_discards_full_records {α : Type} (exec : Executor α)
    (perPage : Nat) (maxPages : Option Nat) (fuel : Nat)
    (trF trL : List (Bool × Nat)) (m : String) (s : List α)
    (hfull : runAttempt exec perPage maxPages false fuel = (trF, .complexityErr m))
    (hlight : runAttempt exec perPage maxPages true fuel = (trL, .ok s)) :
    fetch_all_sets_for_event exec perPage maxPages false fuel =
      (trF ++ trL, .ok s) ∧
    s = (trL.map (fun c => nodesOf (exec c.1 c.2))).flatten ∧
    (∀ c ∈ trL, c.1 = true) := by
  refine ⟨?_, ?_, ?_⟩
  · simp [fetch_all_sets_for_event, hfull, hlight]
  · exact paginateFrom_ok_concat exec true (effectivePerPage true perPage)
      maxPages fuel 1 trL s hlight
  · have := runAttempt_mode exec perPage maxPages true fuel
    rw [hlight] at this
    exact this

/-- Witness for C1: one successful FULL page, a FULL complexity rejection on
page 2, then a successful one-page LIGHT run; the result is the LIGHT page
only. -/
theorem fallback_discards_full_records_witness :
    fetch_all_sets_for_event
      (fun l p => if l then (ExecResp.ok ⟨some [7], some 1⟩ : ExecResp Nat)
        else if p = 1 then ExecResp.ok ⟨some [100], some 3⟩
        else ExecResp.complexityErr "query complexity too high") 50 none false 10 =
      ([(false, 1), (false, 2), (true, 1)], .ok [7]) :=
  (fallback_discards_full_records
    (fun l p => if l then (ExecResp.ok ⟨some [7], some 1⟩ : ExecResp Nat)
      else if p = 1 then ExecResp.ok ⟨some [100], some 3⟩
      else ExecResp.complexityErr "query complexity too high")
    50 none 10 [(false, 1), (false, 2)] [(true, 1)]
    "query complexity too high" [7] (by decide) (by decide)).1

/-- C2: a complexity rejection during the LIGHT attempt — the second
consecutive one after FULL, or the first one under `force_light` — yields
the distinct terminal error carrying the message of the complexity error
that caused it; the trace shows no further attempt, and the terminal error
is never a normal (in particular never a silently empty) result. -/
theorem double_complexity_exhausts {α : Type} (exec : Executor α)
    (perPage : Nat) (maxPages : Option Nat) (fuel : Nat)
    (tr1 tr2 : List (Bool × Nat)) (m1 m2 : String)
    (hfull : runAttempt exec perPage maxPages false fuel = (tr1, .complexityErr m1))
    (hlight : runAttempt exec perPage maxPages true fuel = (tr2, .complexityErr m2)) :
    fetch_all_sets_for_event exec perPage maxPages false fuel =
      (tr1 ++ tr2, .exhaustedFallback m2) ∧
    fetch_all_sets_for_event exec perPage maxPages true fuel =
      (tr2, .exhaustedFallback m2) ∧
    (∀ s : List α, (FetchOutcome.exhaustedFallback m2 : FetchOutcome α) ≠ .ok s) := by
  refine ⟨?_, ?_, ?_⟩
  · simp [fetch_all_sets_for_event, hfull, hlight]
  · simp [fetch_all_sets_for_event, hlight]
  · exact fun s h => FetchOutcome.noConfusion h

/-- Witness for C2: both modes complexity-rejected; with and without
`force_light` the outcome is the terminal error carrying the light-mode
message. -/
theorem double_complexity_exhausts_witness :
    fetch_all_sets_for_event
      (fun l _ => if l then (ExecResp.complexityErr "light limit" : ExecResp Nat)
        else ExecResp.complexityErr "full limit") 50 none false 10 =
      ([(false, 1), (true, 1)], .exhaustedFallback "light limit") ∧
    fetch_all_sets_for_event
      (fun l _ => if l then (ExecResp.complexityErr "light limit" : ExecResp Nat)
        else ExecResp.complexityErr "full limit") 50 none true 10 =
      ([(true, 1)], .exhaustedFallback "light limit") :=
  ⟨(double_complexity_exhausts
      (fun l _ => if l then (ExecResp.complexityErr "light limit" : ExecResp Nat)
        else ExecResp.complexityErr "full limit")
      50 none 10 [(false, 1)] [(true, 1)] "full limit" "light limit"
      (by decide) (by decide)).1,
   (double_complexity_exhausts
      (fun l _ => if l then (ExecResp.complexityErr "light limit" : ExecResp Nat)
        else ExecResp.complexityErr "full limit")
      50 none 10 [(false, 1)] [(true, 1)] "full limit" "light limit"
      (by decide) (by decide)).2.1⟩

/-- C9: within one fetch the mode sequence of the call trace is a block of FULL
calls followed by a block of LIGHT calls (so at most one downgrade and never
LIGHT back to FULL); a non-complexity failure of the first attempt
propagates unchanged with no further calls; and, starting from FULL, a LIGHT
call occurs only if the FULL attempt ended in a complexity rejection. -/
theorem mode_transitions_monotonic {α : Type} (exec : Executor α) (perPage : Nat)
    (maxPages : Option Nat) (forceLight : Bool) (fuel : Nat) :
    (∃ a b, ((fetch_all_sets_for_event exec perPage maxPages forceLight fuel).1).map
        Prod.fst = List.replicate a false ++ List.replicate b true) ∧
    (∀ tr m, runAttempt exec perPage maxPages forceLight fuel = (tr, .otherErr m) →
      fetch_all_sets_for_event exec perPage maxPages forceLight fuel =
        (tr, .otherErr m)) ∧
    (∀ c ∈ (fetch_all_sets_for_event exec perPage maxPages false fuel).1,
      c.1 = true →
      ∃ tr m, runAttempt exec perPage maxPages false fuel = (tr, .complexityErr m)) := by
  refine ⟨?_, ?_, ?_⟩
  · cases forceLight with
    | true =>
      rcases h1 : runAttempt exec perPage maxPages true fuel with ⟨trA, rA⟩
      have hmA : ∀ c ∈ trA, c.1 = true := by
        have := runAttempt_mode exec perPage maxPages true fuel
        rw [h1] at this; exact this
      cases rA <;>
        · simp only [fetch_all_sets_for_event, h1, if_true]
          exact ⟨0, trA.length, by simp [trace_map_replicate trA true hmA]⟩
    | false =>
      rcases h1 : runAttempt exec perPage maxPages false fuel with ⟨trA, rA⟩
      have hmA : ∀ c ∈ trA, c.1 = false := by
        have := runAttempt_mode exec perPage maxPages false fuel
        rw [h1] at this; exact this
      cases rA with
      | ok s =>
        simp only [fetch_all_sets_for_event, h1]
        exact ⟨trA.length, 0, by simp [trace_map_replicate trA false hmA]⟩
      | otherErr m =>
        simp only [fetch_all_sets_for_event, h1]
        exact ⟨trA.length, 0, by simp [trace_map_replicate trA false hmA]⟩
      | fuelOut =>
        simp only [fetch_all_sets_for_event, h1]
        exact ⟨trA.length, 0, by simp [trace_map_replicate trA false hmA]⟩
      | complexityErr m =>
        rcases h2 : runAttempt exec perPage maxPages true fuel with ⟨trB, rB⟩
        have hmB : ∀ c ∈ trB, c.1 = true := by
          have := runAttempt_mode exec perPage maxPages true fuel
          rw [h2] at this; exact this
        cases rB <;>
          · simp only [fetch_all_sets_for_event, h1, h2, Bool.false_eq_true, if_false]
            exact ⟨trA.length, trB.length, by
              rw [List.map_append, trace_map_replicate trA false hmA,
                trace_map_replicate trB true hmB]⟩
  · intro tr m h
    simp [fetch_all_sets_for_event, h]
  · intro c hc hctrue
    rcases h1 : runAttempt exec perPage maxPages false fuel with ⟨trA, rA⟩
    have hmA : ∀ c' ∈ trA, c'.1 = false := by
      have := runAttempt_mode exec perPage maxPages false fuel
      rw [h1] at this; exact this
    cases rA with
    | complexityErr m => exact ⟨trA, m, rfl⟩

    | ok s =>
      simp only [fetch_all_sets_for_event, h1] at hc
      rw [hmA c hc] at hctrue
      cases hctrue
    | otherErr m =>
      simp only [fetch_all_sets_for_event, h1] at hc
      rw [hmA c hc] at hctrue
      cases hctrue
    | fuelOut =>
      simp only [fetch_all_sets_for_event, h1] at hc
      rw [hmA c hc] at hctrue
      cases hctrue

/-- Witness for C9: a non-complexity failure propagates unchanged after a
single FULL-mode call. -/
theorem mode_transitions_monotonic_witness :
    fetch_all_sets_for_event (fun _ _ => (ExecResp.otherErr "boom" : ExecResp Nat))
      50 none false 10 = ([(false, 1)], .otherErr "boom") :=
  (mode_transitions_monotonic (fun _ _ => (ExecResp.otherErr "boom" : ExecResp Nat))
    50 none false 10).2.1 [(false, 1)] "boom" (by decide)

/-- C10: a supplied `max_pages` of `0` is falsy in the Python cap test, so the
fetch behaves exactly as if no cap had been supplied (unbounded pagination),
rather than fetching zero pages. -/
theorem fetch_maxPages_zero_no_cap {α : Type} (exec : Executor α) (perPage : Nat)
    (forceLight : Bool) (fuel : Nat) :
    fetch_all_sets_for_event exec perPage (some 0) forceLight fuel =
      fetch_all_sets_for_event exec perPage none forceLight fuel := by
  unfold fetch_all_sets_for_event runAttempt
  simp only [paginateFrom_some_zero]

/-- C5: with no `max_pages` cap, when every page response reports the same
valid `totalPages = T ≥ 1`, the pagination loop issues exactly `T` requests,
for pages `1, 2, ..., T` in increasing order, and terminates normally with
the concatenation of the nodes of all pages.  The hypothesis leaves each
page node list completely unconstrained, so termination never consults the
per-page node count. -/
theorem fetch_totalPages_exact {α : Type} (exec : Executor α) (light : Bool)
    (perPage fuel T : Nat) (hT : 1 ≤ T) (hfuel : T ≤ fuel)
    (hresp : ∀ p, 1 ≤ p → p ≤ T →
      ∃ env, exec light p = .ok env ∧ env.totalPages = some T) :
    runAttempt exec perPage none light fuel =
      ((List.range' 1 T).map (fun p => (light, p)),
       .ok (((List.range' 1 T).map (fun p => nodesOf (exec light p))).flatten)) := by
  have h := paginateFrom_total exec light (effectivePerPage light perPage) T hresp
    fuel 1 (le_refl 1) hT (by omega)
  have hT1 : T + 1 - 1 = T := by omega
  rw [hT1] at h
  exact h

/-- Witness for C5 with `totalPages = 3`: exactly three page requests, pages
1, 2, 3 in order. -/
theorem fetch_totalPages_exact_witness :
    runAttempt (fun _ p => (ExecResp.ok ⟨some [p], some 3⟩ : ExecResp Nat))
      50 none false 3 = ([(false, 1), (false, 2), (false, 3)], .ok [1, 2, 3]) := by
  have h := fetch_totalPages_exact
    (fun _ p => (ExecResp.ok ⟨some [p], some 3⟩ : ExecResp Nat)) false 50 3 3
    (by decide) (by decide) (fun p _ _ => ⟨⟨some [p], some 3⟩, rfl, rfl⟩)
  rw [h]
  decide

/-- C6: with no cap and `totalPages` absent from every visited page, the loop
terminates exactly at the first page `k` whose node count is strictly less
than the effective per-page size (`per_page` in FULL mode, `min(per_page,10)`
in LIGHT mode, both via `effectivePerPage`); every earlier page has at least
the effective size — in particular a page of exactly the effective size never
terminates the loop — and the result is pages `1..k` concatenated. -/
theorem fetch_noTotal_stops_at_short_page {α : Type} (exec : Executor α)
    (light : Bool) (perPage fuel k : Nat) (ns : Nat → List α)
    (hk : 1 ≤ k) (hfuel : k ≤ fuel)
    (hresp : ∀ p, 1 ≤ p → p ≤ k → exec light p = .ok ⟨some (ns p), none⟩)
    (hfull : ∀ p, 1 ≤ p → p < k → effectivePerPage light perPage ≤ (ns p).length)
    (hlast : (ns k).length < effectivePerPage light perPage) :
    runAttempt exec perPage none light fuel =
      ((List.range' 1 k).map (fun p => (light, p)),
       .ok (((List.range' 1 k).map ns).flatten)) := by
  have h := paginateFrom_nototal exec light (effectivePerPage light perPage) k ns
    hresp hfull hlast fuel 1 (le_refl 1) hk (by omega)
  have hk1 : k + 1 - 1 = k := by omega
  rw [hk1] at h
  exact h

/-- Witness for C6: effective size 2, page 1 returns 2 nodes (does not
stop), page 2 returns 1 node (stops). -/
theorem fetch_noTotal_stops_at_short_page_witness :
    runAttempt
      (fun _ p => (ExecResp.ok ⟨some (if p = 1 then [10, 20] else [30]), none⟩ :
        ExecResp Nat)) 2 none false 2 =
      ([(false, 1), (false, 2)], .ok [10, 20, 30]) := by
  have h := fetch_noTotal_stops_at_short_page
    (fun _ p => (ExecResp.ok ⟨some (if p = 1 then [10, 20] else [30]), none⟩ :
      ExecResp Nat)) false 2 2 2 (fun p => if p = 1 then [10, 20] else [30])
    (by decide) (by decide) (fun p _ _ => rfl)
    (by intro p h1 h2; have hp : p = 1 := by omega
        subst hp; decide)
    (by decide)
  rw [h]
  decide

/-- C7: a positive cap `m` bounds the number of page requests by `m` for any
executor, and the truncation is a normal result: concretely, with
`max_pages = 2` against an event reporting `totalPages = 5` on every page,
the fetch returns exactly the nodes of pages 1 and 2. -/
theorem fetch_maxPages_truncates {α : Type} (exec : Executor α) (light : Bool)
    (perPage m fuel : Nat) (hm : 1 ≤ m) :
    (runAttempt exec perPage (some m) light fuel).1.length ≤ m ∧
    (∀ (exec5 : Executor α) (ns : Nat → List α),
      (∀ p, exec5 light p = .ok ⟨some (ns p), some 5⟩) →
      runAttempt exec5 perPage (some 2) light (fuel + 2) =
        ([(light, 1), (light, 2)], .ok (ns 1 ++ ns 2))) := by
  constructor
  · have h := paginateFrom_cap_len exec light (effectivePerPage light perPage) m hm
      fuel 1 (le_refl 1) hm
    simpa using h
  · intro exec5 ns h5
    show paginateFrom exec5 light (effectivePerPage light perPage) (some 2)
      (fuel + 1 + 1) 1 = ([(light, 1), (light, 2)], .ok (ns 1 ++ ns 2))
    simp [paginateFrom, h5 1, h5 2, maxPagesExceeded, mergeOk]

/-- Witness for C7 at `m = 2`, `totalPages = 5`, one node per page. -/
theorem fetch_maxPages_truncates_witness :
    (runAttempt (fun _ p => (ExecResp.ok ⟨some [p], some 5⟩ : ExecResp Nat))
      50 (some 2) false 2).1.length ≤ 2 ∧
    runAttempt (fun _ p => (ExecResp.ok ⟨some [p], some 5⟩ : ExecResp Nat))
      50 (some 2) false (2 + 2) = ([(false, 1), (false, 2)], .ok ([1] ++ [2])) :=
  have h := fetch_maxPages_truncates
    (fun _ p => (ExecResp.ok ⟨some [p], some 5⟩ : ExecResp Nat)) false 50 2 2
    (by decide)
  ⟨h.1, h.2 (fun _ p => (ExecResp.ok ⟨some [p], some 5⟩ : ExecResp Nat))
    (fun p => [p]) (fun p => rfl)⟩

end DWTV
